import Mathlib

/-!
Shallow embedding of the persistence core of the project-planner MCP server
(src/src/index.ts).  The key-value store is modelled as an association list
from string keys (built exactly as the source's template strings build them)
to stored values.  Stored values are JSON in the source; since the layer
only ever writes JSON arrays of ids, Project records and Todo records, and
JSON round-trips those faithfully, the value type is the sum of the three
shapes.  Each tool handler is a function from the pre-state to a response, a
post-state, and the list of put/delete effects it issued, in order.
-/

namespace ProjectPlanner

/-- Todo status enumeration from the source's Todo interface. -/
inductive Status where
  | pending
  | in_progress
  | completed
  deriving DecidableEq, Repr

/-- Todo priority enumeration from the source's Todo interface. -/
inductive Priority where
  | low
  | medium
  | high
  deriving DecidableEq, Repr

/-- Project record, as in the source's Project interface.  Timestamps are
modelled as opaque strings (ISO strings in the source). -/
structure Project where
  id : String
  name : String
  description : String
  createdAt : String
  updatedAt : String
  deriving DecidableEq, Repr

/-- Todo record, as in the source's Todo interface. -/
structure Todo where
  id : String
  projectId : String
  title : String
  description : String
  status : Status
  priority : Priority
  createdAt : String
  updatedAt : String
  deriving DecidableEq, Repr

/-- The three JSON shapes this layer ever stores: an id list (an index), a
Project record, a Todo record. -/
inductive Val where
  | idsV : List String → Val
  | projV : Project → Val
  | todoV : Todo → Val
  deriving DecidableEq, Repr

/-- The key-value store (Cloudflare KV namespace), as an association list;
the most recent binding of a key shadows older ones. -/
abbrev Store := List (String × Val)

/-- KV.get. -/
def kvGet (s : Store) (k : String) : Option Val :=
  match s with
  | [] => none
  | (k2, v) :: rest => if k2 = k then some v else kvGet rest k

/-- KV.put. -/
def kvPut (s : Store) (k : String) (v : Val) : Store :=
  (k, v) :: s

/-- KV.delete. -/
def kvDelete (s : Store) (k : String) : Store :=
  s.filter (fun p => p.1 ≠ k)

/-- A primitive store effect issued by a handler. -/
inductive Eff where
  | putE : String → Val → Eff
  | delE : String → Eff
  deriving DecidableEq, Repr

/-- Handler-internal state: the evolving store plus the effect trace so far. -/
abbrev St := Store × List Eff

def stPut (st : St) (k : String) (v : Val) : St :=
  (kvPut st.1 k v, st.2 ++ [Eff.putE k v])

def stDel (st : St) (k : String) : St :=
  (kvDelete st.1 k, st.2 ++ [Eff.delE k])

/-! Key schema, transliterated from the source's template strings. -/

/-- Key of a Project record: project:[id]:user-[login]  (index.ts line 180/211/235). -/
def projectKey (projectId login : String) : String :=
  "project:" ++ projectId ++ ":user-" ++ login

/-- Key the project index is READ from: project:user-[login]:list, a template
literal (index.ts line 54). -/
def projectListReadKey (login : String) : String :=
  "project:user-" ++ login ++ ":list"

/-- Key the project index is WRITTEN to (index.ts lines 189 and 294): the
source uses a plain double-quoted string, not a template literal, so the
dollar-brace placeholder is literal text and the key is one constant. -/
def projectListWriteKey : String :=
  "project:user-$\x7bthis.props!.login\x7d:list"

/-- Key of a project's todo index: project:[id]:user-[login]:todos (line 61). -/
def todoListKey (projectId login : String) : String :=
  "project:" ++ projectId ++ ":user-" ++ login ++ ":todos"

/-- Key of a Todo record: todo:user-[login]:[id] (line 70). -/
def todoKey (login todoId : String) : String :=
  "todo:user-" ++ login ++ ":" ++ todoId

/-! Private helpers of the MyMCP class. -/

/-- getProjectList (lines 53-58): read the index at the template-literal key;
absence (or a non-list value, which never occurs in reachable stores) is the
empty list. -/
def getProjectList (login : String) (s : Store) : List String :=
  match kvGet s (projectListReadKey login) with
  | some (Val.idsV ids) => ids
  | _ => []

/-- getTodoList (lines 60-64). -/
def getTodoList (projectId login : String) (s : Store) : List String :=
  match kvGet s (todoListKey projectId login) with
  | some (Val.idsV ids) => ids
  | _ => []

/-- The loop body of getTodosByProject (lines 66-76): resolve each id,
silently skipping ids whose record is missing. -/
def resolveTodos (login : String) (s : Store) : List String → List Todo
  | [] => []
  | todoId :: rest =>
    match kvGet s (todoKey login todoId) with
    | some (Val.todoV t) => t :: resolveTodos login s rest
    | _ => resolveTodos login s rest

/-- getTodosByProject (lines 66-76). -/
def getTodosByProject (projectId login : String) (s : Store) : List Todo :=
  resolveTodos login s (getTodoList projectId login s)

/-- The loop body of get_project_list (lines 210-215): resolve each project
id, silently skipping missing records. -/
def resolveProjects (login : String) (s : Store) : List String → List Project
  | [] => []
  | pid :: rest =>
    match kvGet s (projectKey pid login) with
    | some (Val.projV p) => p :: resolveProjects login s rest
    | _ => resolveProjects login s rest

/-- indexOf + splice(index, 1): remove the first occurrence, if any. -/
def removeFirst : List String → String → List String
  | [], _ => []
  | x :: xs, y => if x = y then xs else x :: removeFirst xs y

/-- Private deleteTodo (lines 92-99): remove the todo id from the project's
todo index (first occurrence only) and write the index back.  It does NOT
delete the todo record itself. -/
def deleteTodo (projectId todoId login : String) (st : St) : St :=
  stPut st (todoListKey projectId login)
    (Val.idsV (removeFirst (getTodoList projectId login st.1) todoId))

/-- A tool handler's visible result: either a normal text-bearing response
(whose payload we keep structured rather than JSON-stringified) or a thrown
Error (a fault). -/
inductive Resp where
  | textMsg : String → Resp
  | projectJson : Project → Resp
  | projectListJson : List Project → Resp
  | projectWithTodos : Project → List Todo → Resp
  | todoJson : Todo → Resp
  | todoListJson : List Todo → Resp
  | fault : String → Resp
  deriving DecidableEq, Repr

/-- The status argument of list_todos: z.enum pending, in_progress,
completed, all. -/
inductive StatusFilter where
  | pending
  | in_progress
  | completed
  | all
  deriving DecidableEq, Repr

/-- The status value a filter compares against; all is not a status value
(the source's check: status and status not equal to the string all). -/
def StatusFilter.asStatus : StatusFilter → Option Status
  | .pending => some Status.pending
  | .in_progress => some Status.in_progress
  | .completed => some Status.completed
  | .all => none

/-! The tool handlers (init(), lines 101-491).  newId stands for the
crypto.randomUUID() result and now for new Date().toISOString(), both
supplied as oracle inputs. -/

/-- createProject (lines 162-200): write the record at the project key, then
read the index (template-literal key), push the id, and write the index back
to the plain-string key. -/
def createProject (login name : String) (description : Option String)
    (newId now : String) (s : Store) : Resp × St :=
  let project : Project :=
    { id := newId
      name := name
      description := description.getD ""
      createdAt := now
      updatedAt := now }
  let st1 := stPut (s, []) (projectKey newId login) (Val.projV project)
  let st2 := stPut st1 projectListWriteKey
    (Val.idsV (getProjectList login st1.1 ++ [newId]))
  (Resp.projectJson project, st2)

/-- get_project_list (lines 202-225). -/
def get_project_list (login : String) (s : Store) : Resp × St :=
  (Resp.projectListJson (resolveProjects login s (getProjectList login s)), (s, []))

/-- get_project (lines 227-257): not-found is a normal text response. -/
def get_project (login projectId : String) (s : Store) : Resp × St :=
  match kvGet s (projectKey projectId login) with
  | some (Val.projV p) =>
    (Resp.projectWithTodos p (getTodosByProject projectId login s), (s, []))
  | _ =>
    (Resp.textMsg ("Project with ID " ++ projectId ++ " not found"), (s, []))

/-- delete_project (lines 259-305): per-todo cascade via the private
deleteTodo, delete the project record, then rewrite the project index
(read from the template-literal key, written to the plain-string key). -/
def delete_project (login projectId : String) (s : Store) : Resp × St :=
  match kvGet s (projectKey projectId login) with
  | some (Val.projV _) =>
    let todos := getTodosByProject projectId login s
    let st1 := todos.foldl (fun st t => deleteTodo projectId t.id login st) ((s, []) : St)
    let st2 := stDel st1 (projectKey projectId login)
    let st3 := stPut st2 projectListWriteKey
      (Val.idsV (removeFirst (getProjectList login st2.1) projectId))
    (Resp.textMsg ("Project with ID " ++ projectId ++ " and all its todos deleted"), st3)
  | _ =>
    (Resp.textMsg ("Project with ID " ++ projectId ++ " not found"), (s, []))

/-- create_todo (lines 307-355): not-found (normal response) if the parent
project record is absent; otherwise write the record, then append the id to
the project's todo index. -/
def create_todo (login projectId title : String) (description : Option String)
    (priority : Option Priority) (newId now : String) (s : Store) : Resp × St :=
  match kvGet s (projectKey projectId login) with
  | some (Val.projV _) =>
    let todo : Todo :=
      { id := newId
        projectId := projectId
        title := title
        description := description.getD ""
        priority := priority.getD Priority.medium
        status := Status.pending
        createdAt := now
        updatedAt := now }
    let st1 := stPut (s, []) (todoKey login newId) (Val.todoV todo)
    let st2 := stPut st1 (todoListKey projectId login)
      (Val.idsV (getTodoList projectId login st1.1 ++ [newId]))
    (Resp.todoJson todo, st2)
  | _ =>
    (Resp.textMsg ("Project with ID " ++ projectId ++ " not found"), (s, []))

/-- update_todo (lines 357-396): partial update; title always replaced,
description/status/priority only when supplied, updatedAt refreshed; the
record is written back under its own key and nothing else is touched. -/
def update_todo (login todoId title : String) (description : Option String)
    (status : Option Status) (priority : Option Priority)
    (now : String) (s : Store) : Resp × St :=
  match kvGet s (todoKey login todoId) with
  | some (Val.todoV t) =>
    let t2 : Todo :=
      { t with
        title := title
        description := description.getD t.description
        status := status.getD t.status
        priority := priority.getD t.priority
        updatedAt := now }
    (Resp.todoJson t2, stPut (s, []) (todoKey login todoId) (Val.todoV t2))
  | _ =>
    (Resp.textMsg ("Todo with ID " ++ todoId ++ " not found"), (s, []))

/-- delete_todo (lines 398-438): throws (fault) when the record is absent;
otherwise filters EVERY occurrence of the id out of the parent's todo index,
writes the index back, and deletes the record. -/
def delete_todo (login todoId : String) (s : Store) : Resp × St :=
  match kvGet s (todoKey login todoId) with
  | some (Val.todoV t) =>
    let st1 := stPut (s, []) (todoListKey t.projectId login)
      (Val.idsV ((getTodoList t.projectId login s).filter (fun i => i ≠ todoId)))
    let st2 := stDel st1 (todoKey login todoId)
    (Resp.textMsg ("Todo with ID " ++ todoId ++ " deleted"), st2)
  | _ =>
    (Resp.fault ("Todo with ID " ++ todoId ++ " not found"), (s, []))

/-- get_todo (lines 440-461): throws (fault) when absent. -/
def get_todo (login todoId : String) (s : Store) : Resp × St :=
  match kvGet s (todoKey login todoId) with
  | some (Val.todoV t) => (Resp.todoJson t, (s, []))
  | _ => (Resp.fault ("Todo with ID " ++ todoId ++ " not found"), (s, []))

/-- list_todos (lines 463-490): throws (fault) when the project record is
absent; otherwise resolves the index and filters by status unless the filter
is missing or the string all. -/
def list_todos (login projectId : String) (statusFilter : Option StatusFilter)
    (s : Store) : Resp × St :=
  match kvGet s (projectKey projectId login) with
  | some (Val.projV _) =>
    let todos := getTodosByProject projectId login s
    let todos2 :=
      match statusFilter with
      | some f =>
        match f.asStatus with
        | some st => todos.filter (fun t => t.status = st)
        | none => todos
      | none => todos
    (Resp.todoListJson todos2, (s, []))
  | _ =>
    (Resp.fault ("Project with ID " ++ projectId ++ " not found"), (s, []))

/-- The static allow-list (lines 36-41): only these logins get the project
and todo tools registered. -/
def ALLOWED_USERNAMES : List String := ["hubiao1688", "ermao1688"]

/-- One tool call in a trace, with its caller's login and the oracle inputs
(fresh id, current time) the handler consumes. -/
inductive Call where
  | cCreateProject (login name : String) (description : Option String) (newId now : String)
  | cGetProjectList (login : String)
  | cGetProject (login projectId : String)
  | cDeleteProject (login projectId : String)
  | cCreateTodo (login projectId title : String) (description : Option String)
      (priority : Option Priority) (newId now : String)
  | cUpdateTodo (login todoId title : String) (description : Option String)
      (status : Option Status) (priority : Option Priority) (now : String)
  | cDeleteTodo (login todoId : String)
  | cGetTodo (login todoId : String)
  | cListTodos (login projectId : String) (statusFilter : Option StatusFilter)

/-- The caller's login of a call. -/
def Call.login : Call → String
  | .cCreateProject l _ _ _ _ => l
  | .cGetProjectList l => l
  | .cGetProject l _ => l
  | .cDeleteProject l _ => l
  | .cCreateTodo l _ _ _ _ _ _ => l
  | .cUpdateTodo l _ _ _ _ _ _ => l
  | .cDeleteTodo l _ => l
  | .cGetTodo l _ => l
  | .cListTodos l _ _ => l

/-- Dispatch a call to its handler. -/
def dispatch (s : Store) : Call → Resp × St
  | .cCreateProject l n d i t => createProject l n d i t s
  | .cGetProjectList l => get_project_list l s
  | .cGetProject l p => get_project l p s
  | .cDeleteProject l p => delete_project l p s
  | .cCreateTodo l p ti d pr i t => create_todo l p ti d pr i t s
  | .cUpdateTodo l td ti d st pr t => update_todo l td ti d st pr t s
  | .cDeleteTodo l td => delete_todo l td s
  | .cGetTodo l td => get_todo l td s
  | .cListTodos l p f => list_todos l p f s

/-- Effect of one call on the store.  For logins outside the allow-list the
project and todo tools are not registered (the only registered tools, add
and userInfoOctokit, never touch the store), so the store is unchanged. -/
def applyCall (s : Store) (c : Call) : Store :=
  if c.login ∈ ALLOWED_USERNAMES then (dispatch s c).2.1 else s

/-- Run a finite sequence of tool calls. -/
def runCalls (s : Store) (cs : List Call) : Store :=
  cs.foldl applyCall s

/-! Basic store lemmas. -/

theorem kvGet_cons_ne (s : Store) (k2 k : String) (v : Val) (h : k ≠ k2) :
    kvGet ((k2, v) :: s) k = kvGet s k := by
  simp [kvGet, Ne.symm h]

theorem kvGet_cons_self (s : Store) (k : String) (v : Val) :
    kvGet ((k, v) :: s) k = some v := by
  simp [kvGet]

theorem kvGet_put_self (s : Store) (k : String) (v : Val) :
    kvGet (kvPut s k v) k = some v :=
  kvGet_cons_self s k v

theorem kvGet_put_ne (s : Store) (kp k : String) (v : Val) (h : k ≠ kp) :
    kvGet (kvPut s kp v) k = kvGet s k :=
  kvGet_cons_ne s kp k v h

theorem kvGet_del_ne (s : Store) (kd k : String) (h : k ≠ kd) :
    kvGet (kvDelete s kd) k = kvGet s k := by
  induction s with
  | nil => rfl
  | cons p rest ih =>
    rcases p with ⟨k2, v⟩
    by_cases hk : k2 = kd
    · have hne : k ≠ k2 := by rw [hk]; exact h
      have e1 : kvDelete ((k2, v) :: rest) kd = kvDelete rest kd := by
        simp [kvDelete, List.filter_cons, hk]
      rw [e1, ih, kvGet_cons_ne rest k2 k v hne]
    · have e1 : kvDelete ((k2, v) :: rest) kd = (k2, v) :: kvDelete rest kd := by
        simp [kvDelete, List.filter_cons, hk]
      by_cases hq : k2 = k
      · subst hq
        rw [e1, kvGet_cons_self, kvGet_cons_self]
      · rw [e1, kvGet_cons_ne _ _ _ _ (Ne.symm hq), ih,
          kvGet_cons_ne _ _ _ _ (Ne.symm hq)]

/-! Character-level string discrimination: two strings differ if their first
characters or reversed prefixes differ. -/

def prefixChars (s : String) (n : Nat) : List Char := s.data.take n

def suffixChars (s : String) (n : Nat) : List Char := s.data.reverse.take n

theorem prefixChars_append (a b : String) (n : Nat) (h : n ≤ a.length) :
    prefixChars (a ++ b) n = prefixChars a n := by
  unfold prefixChars
  rw [String.data_append]
  exact List.take_append_of_le_length h

theorem suffixChars_append (a b : String) (n : Nat) (h : n ≤ b.length) :
    suffixChars (a ++ b) n = suffixChars b n := by
  unfold suffixChars
  rw [String.data_append, List.reverse_append]
  exact List.take_append_of_le_length (by simpa using h)

theorem ne_of_prefixChars_ne (s t : String) (n : Nat)
    (h : prefixChars s n ≠ prefixChars t n) : s ≠ t :=
  fun e => h (by rw [e])

theorem ne_of_suffixChars_ne (s t : String) (n : Nat)
    (h : suffixChars s n ≠ suffixChars t n) : s ≠ t :=
  fun e => h (by rw [e])

/-! Shape of the schema keys under those projections. -/

theorem projectKey_suffix (pid lg : String) (n : Nat) (h : n ≤ lg.length) :
    suffixChars (projectKey pid lg) n = suffixChars lg n :=
  suffixChars_append _ lg n h

theorem todoListKey_suffix (pid lg : String) (n : Nat) (h : n ≤ lg.length + 6) :
    suffixChars (todoListKey pid lg) n = suffixChars (lg ++ ":todos") n := by
  have e : todoListKey pid lg =
      ("project:" ++ pid ++ ":user-") ++ (lg ++ ":todos") := by
    simp [todoListKey, String.append_assoc]
  rw [e]
  refine suffixChars_append _ _ n ?hl
  rw [String.length_append]
  have h6 : (":todos").length = 6 := rfl
  omega

theorem projectListReadKey_suffix (lg : String) (n : Nat) (h : n ≤ 5) :
    suffixChars (projectListReadKey lg) n = suffixChars ":list" n := by
  have e : projectListReadKey lg = ("project:user-" ++ lg) ++ ":list" := by
    simp [projectListReadKey, String.append_assoc]
  rw [e]
  refine suffixChars_append _ _ n ?hl
  have h5 : (":list").length = 5 := rfl
  omega

theorem todoKey_front (lg tid : String) (n : Nat) (h : n ≤ lg.length + 10) :
    prefixChars (todoKey lg tid) n = prefixChars ("todo:user-" ++ lg) n := by
  have e : todoKey lg tid = ("todo:user-" ++ lg) ++ (":" ++ tid) := by
    simp [todoKey, String.append_assoc]
  rw [e]
  refine prefixChars_append _ _ n ?hl
  rw [String.length_append]
  have h10 : ("todo:user-").length = 10 := rfl
  omega

theorem prefixChars_one (a b : String) (c : Char) (hc : prefixChars a 1 = [c])
    (hl : 1 ≤ a.length) : prefixChars (a ++ b) 1 = [c] := by
  rw [prefixChars_append a b 1 hl]; exact hc

theorem one_le_len_append (a b : String) (h : 1 ≤ a.length) : 1 ≤ (a ++ b).length := by
  rw [String.length_append]; omega

theorem todoKey_head (lg tid : String) : prefixChars (todoKey lg tid) 1 = ['t'] := by
  rw [todoKey_front lg tid 1 (by omega)]
  exact prefixChars_one _ _ _ rfl (by decide)

theorem projectKey_head (pid lg : String) : prefixChars (projectKey pid lg) 1 = ['p'] := by
  unfold projectKey
  have h8 : 1 ≤ ("project:").length := by decide
  have l1 : 1 ≤ ("project:" ++ pid).length := one_le_len_append _ _ h8
  have l2 : 1 ≤ ("project:" ++ pid ++ ":user-").length := one_le_len_append _ _ l1
  exact prefixChars_one _ _ _
    (prefixChars_one _ _ _ (prefixChars_one _ _ _ rfl h8) l1) l2

theorem todoListKey_head (pid lg : String) : prefixChars (todoListKey pid lg) 1 = ['p'] := by
  unfold todoListKey
  have h8 : 1 ≤ ("project:").length := by decide
  have l1 : 1 ≤ ("project:" ++ pid).length := one_le_len_append _ _ h8
  have l2 : 1 ≤ ("project:" ++ pid ++ ":user-").length := one_le_len_append _ _ l1
  have l3 : 1 ≤ ("project:" ++ pid ++ ":user-" ++ lg).length := one_le_len_append _ _ l2
  exact prefixChars_one _ _ _
    (prefixChars_one _ _ _ (prefixChars_one _ _ _ (prefixChars_one _ _ _ rfl h8) l1) l2) l3

theorem projectListReadKey_head (L : String) :
    prefixChars (projectListReadKey L) 1 = ['p'] := by
  unfold projectListReadKey
  have h13 : 1 ≤ ("project:user-").length := by decide
  have l1 : 1 ≤ ("project:user-" ++ L).length := one_le_len_append _ _ h13
  exact prefixChars_one _ _ _ (prefixChars_one _ _ _ rfl h13) l1

/-! Facts about the two allow-listed logins, and disjointness of the keys the
handlers read and write. -/

theorem allowed_cases (lg : String) (h : lg ∈ ALLOWED_USERNAMES) :
    lg = "hubiao1688" ∨ lg = "ermao1688" := by
  simpa [ALLOWED_USERNAMES] using h

theorem allowed_suffix5 (lg : String) (h : lg ∈ ALLOWED_USERNAMES) :
    suffixChars lg 5 = ['8', '8', '6', '1', 'o'] ∧ 5 ≤ lg.length := by
  rcases allowed_cases lg h with rfl | rfl <;> exact ⟨by decide, by decide⟩

theorem projectKey_ne_readKey (pid lg L : String) (h : lg ∈ ALLOWED_USERNAMES) :
    projectKey pid lg ≠ projectListReadKey L := by
  obtain ⟨h5, hlen⟩ := allowed_suffix5 lg h
  refine ne_of_suffixChars_ne _ _ 5 ?_
  rw [projectKey_suffix pid lg 5 hlen, projectListReadKey_suffix L 5 (by omega), h5]
  decide

theorem todoListKey_ne_readKey (pid lg L : String) :
    todoListKey pid lg ≠ projectListReadKey L := by
  refine ne_of_suffixChars_ne _ _ 5 ?_
  rw [todoListKey_suffix pid lg 5 (by omega), projectListReadKey_suffix L 5 (by omega),
    suffixChars_append lg ":todos" 5 (by decide)]
  decide

theorem todoKey_ne_readKey (lg tid L : String) :
    todoKey lg tid ≠ projectListReadKey L := by
  refine ne_of_prefixChars_ne _ _ 1 ?_
  rw [todoKey_head, projectListReadKey_head]
  decide

theorem writeKey_ne_readKey (L : String) (hL : L ∈ ALLOWED_USERNAMES) :
    projectListWriteKey ≠ projectListReadKey L := by
  rcases allowed_cases L hL with rfl | rfl <;> decide

theorem todoKey_ne_todoListKey (lg tid pid lg2 : String) :
    todoKey lg tid ≠ todoListKey pid lg2 := by
  refine ne_of_prefixChars_ne _ _ 1 ?_
  rw [todoKey_head, todoListKey_head]
  decide

theorem todoKey_ne_projectKey (lg tid pid lg2 : String) :
    todoKey lg tid ≠ projectKey pid lg2 := by
  refine ne_of_prefixChars_ne _ _ 1 ?_
  rw [todoKey_head, projectKey_head]
  decide

theorem todoKey_ne_writeKey (lg tid : String) :
    todoKey lg tid ≠ projectListWriteKey := by
  refine ne_of_prefixChars_ne _ _ 1 ?_
  rw [todoKey_head]
  decide

theorem projectKey_ne_writeKey (pid lg : String) (h : lg ∈ ALLOWED_USERNAMES) :
    projectKey pid lg ≠ projectListWriteKey := by
  obtain ⟨h5, hlen⟩ := allowed_suffix5 lg h
  refine ne_of_suffixChars_ne _ _ 5 ?_
  rw [projectKey_suffix pid lg 5 hlen, h5]
  decide

theorem todoListKey_ne_writeKey (pid lg : String) :
    todoListKey pid lg ≠ projectListWriteKey := by
  refine ne_of_suffixChars_ne _ _ 5 ?_
  rw [todoListKey_suffix pid lg 5 (by omega), suffixChars_append lg ":todos" 5 (by decide)]
  decide

theorem todoListKey_ne_projectKey (pid lg q lg2 : String) (h : lg2 ∈ ALLOWED_USERNAMES) :
    todoListKey pid lg ≠ projectKey q lg2 := by
  obtain ⟨h5, hlen⟩ := allowed_suffix5 lg2 h
  refine ne_of_suffixChars_ne _ _ 5 ?_
  rw [todoListKey_suffix pid lg 5 (by omega), suffixChars_append lg ":todos" 5 (by decide),
    projectKey_suffix q lg2 5 hlen, h5]
  decide

theorem cross_projectKey_ne (pid q A B : String) (hA : A ∈ ALLOWED_USERNAMES)
    (hB : B ∈ ALLOWED_USERNAMES) (hAB : A ≠ B) :
    projectKey pid A ≠ projectKey q B := by
  refine ne_of_suffixChars_ne _ _ 7 ?_
  rcases allowed_cases A hA with rfl | rfl <;> rcases allowed_cases B hB with rfl | rfl
  · exact absurd rfl hAB
  · rw [projectKey_suffix _ _ 7 (by decide), projectKey_suffix _ _ 7 (by decide)]; decide
  · rw [projectKey_suffix _ _ 7 (by decide), projectKey_suffix _ _ 7 (by decide)]; decide
  · exact absurd rfl hAB

theorem cross_todoListKey_ne (pid q A B : String) (hA : A ∈ ALLOWED_USERNAMES)
    (hB : B ∈ ALLOWED_USERNAMES) (hAB : A ≠ B) :
    todoListKey pid A ≠ todoListKey q B := by
  refine ne_of_suffixChars_ne _ _ 13 ?_
  rcases allowed_cases A hA with rfl | rfl <;> rcases allowed_cases B hB with rfl | rfl
  · exact absurd rfl hAB
  · rw [todoListKey_suffix _ _ 13 (by decide), todoListKey_suffix _ _ 13 (by decide)]; decide
  · rw [todoListKey_suffix _ _ 13 (by decide), todoListKey_suffix _ _ 13 (by decide)]; decide
  · exact absurd rfl hAB

theorem cross_todoKey_ne (tid q A B : String) (hA : A ∈ ALLOWED_USERNAMES)
    (hB : B ∈ ALLOWED_USERNAMES) (hAB : A ≠ B) :
    todoKey A tid ≠ todoKey B q := by
  refine ne_of_prefixChars_ne _ _ 11 ?_
  rcases allowed_cases A hA with rfl | rfl <;> rcases allowed_cases B hB with rfl | rfl
  · exact absurd rfl hAB
  · rw [todoKey_front _ _ 11 (by decide), todoKey_front _ _ 11 (by decide)]; decide
  · rw [todoKey_front _ _ 11 (by decide), todoKey_front _ _ 11 (by decide)]; decide
  · exact absurd rfl hAB

/-! Which keys a handler running as login lg can touch: a key outside the
four owner-scoped schema families (record keys, index keys, and the constant
write key) is never written or deleted by any handler. -/

def untouchedBy (lg k : String) : Prop :=
  (∀ pid, k ≠ projectKey pid lg) ∧ (∀ pid, k ≠ todoListKey pid lg) ∧
  (∀ tid, k ≠ todoKey lg tid) ∧ k ≠ projectListWriteKey

theorem createProject_untouched (lg nm : String) (d : Option String) (i t : String)
    (s : Store) (k : String) (h : untouchedBy lg k) :
    kvGet (createProject lg nm d i t s).2.1 k = kvGet s k := by
  obtain ⟨h1, h2, h3, h4⟩ := h
  simp only [createProject, stPut, kvPut]
  rw [kvGet_cons_ne _ _ _ _ h4, kvGet_cons_ne _ _ _ _ (h1 i)]

theorem foldl_deleteTodo_get (pid lg k : String) (h : k ≠ todoListKey pid lg) :
    ∀ (ts : List Todo) (st : St),
      kvGet (ts.foldl (fun st t => deleteTodo pid t.id lg st) st).1 k = kvGet st.1 k := by
  intro ts
  induction ts with
  | nil => intro st; rfl
  | cons t rest ih =>
    intro st
    rw [List.foldl_cons, ih]
    simp only [deleteTodo, stPut, kvPut]
    rw [kvGet_cons_ne _ _ _ _ h]

theorem delete_project_untouched (lg pid : String) (s : Store) (k : String)
    (h : untouchedBy lg k) :
    kvGet (delete_project lg pid s).2.1 k = kvGet s k := by
  obtain ⟨h1, h2, h3, h4⟩ := h
  cases hv : kvGet s (projectKey pid lg) with
  | none => simp [delete_project, hv]
  | some v =>
    cases v with
    | idsV l => simp [delete_project, hv]
    | todoV t => simp [delete_project, hv]
    | projV p =>
      simp only [delete_project, hv, stPut, stDel, kvPut]
      rw [kvGet_cons_ne _ _ _ _ h4, kvGet_del_ne _ _ _ (h1 pid),
        foldl_deleteTodo_get pid lg k (h2 pid)]

theorem create_todo_untouched (lg pid ti : String) (d : Option String)
    (pr : Option Priority) (i t : String) (s : Store) (k : String)
    (h : untouchedBy lg k) :
    kvGet (create_todo lg pid ti d pr i t s).2.1 k = kvGet s k := by
  obtain ⟨h1, h2, h3, h4⟩ := h
  cases hv : kvGet s (projectKey pid lg) with
  | none => simp [create_todo, hv]
  | some v =>
    cases v with
    | idsV l => simp [create_todo, hv]
    | todoV t2 => simp [create_todo, hv]
    | projV p =>
      simp only [create_todo, hv, stPut, kvPut]
      rw [kvGet_cons_ne _ _ _ _ (h2 pid), kvGet_cons_ne _ _ _ _ (h3 i)]

theorem update_todo_untouched (lg tid ti : String) (d : Option String)
    (st2 : Option Status) (pr : Option Priority) (t : String) (s : Store)
    (k : String) (h : untouchedBy lg k) :
    kvGet (update_todo lg tid ti d st2 pr t s).2.1 k = kvGet s k := by
  obtain ⟨h1, h2, h3, h4⟩ := h
  cases hv : kvGet s (todoKey lg tid) with
  | none => simp [update_todo, hv]
  | some v =>
    cases v with
    | idsV l => simp [update_todo, hv]
    | projV p => simp [update_todo, hv]
    | todoV t0 =>
      simp only [update_todo, hv, stPut, kvPut]
      rw [kvGet_cons_ne _ _ _ _ (h3 tid)]

theorem delete_todo_untouched (lg tid : String) (s : Store) (k : String)
    (h : untouchedBy lg k) :
    kvGet (delete_todo lg tid s).2.1 k = kvGet s k := by
  obtain ⟨h1, h2, h3, h4⟩ := h
  cases hv : kvGet s (todoKey lg tid) with
  | none => simp [delete_todo, hv]
  | some v =>
    cases v with
    | idsV l => simp [delete_todo, hv]
    | projV p => simp [delete_todo, hv]
    | todoV t0 =>
      simp only [delete_todo, hv, stPut, stDel, kvPut]
      rw [kvGet_del_ne _ _ _ (h3 tid), kvGet_cons_ne _ _ _ _ (h2 t0.projectId)]

theorem get_project_store (lg pid : String) (s : Store) :
    (get_project lg pid s).2.1 = s := by
  cases hv : kvGet s (projectKey pid lg) with
  | none => simp [get_project, hv]
  | some v => cases v <;> simp [get_project, hv]

theorem get_todo_store (lg tid : String) (s : Store) :
    (get_todo lg tid s).2.1 = s := by
  cases hv : kvGet s (todoKey lg tid) with
  | none => simp [get_todo, hv]
  | some v => cases v <;> simp [get_todo, hv]

theorem list_todos_store (lg pid : String) (f : Option StatusFilter) (s : Store) :
    (list_todos lg pid f s).2.1 = s := by
  cases hv : kvGet s (projectKey pid lg) with
  | none => simp [list_todos, hv]
  | some v => cases v <;> simp [list_todos, hv]

theorem dispatch_untouched (s : Store) (c : Call) (k : String)
    (h : untouchedBy c.login k) :
    kvGet (dispatch s c).2.1 k = kvGet s k := by
  cases c with
  | cCreateProject l nm d i t => exact createProject_untouched l nm d i t s k h
  | cGetProjectList l => rfl
  | cGetProject l pid =>
    show kvGet (get_project l pid s).2.1 k = kvGet s k
    rw [get_project_store]
  | cDeleteProject l pid => exact delete_project_untouched l pid s k h
  | cCreateTodo l pid ti d pr i t => exact create_todo_untouched l pid ti d pr i t s k h
  | cUpdateTodo l tid ti d st2 pr t => exact update_todo_untouched l tid ti d st2 pr t s k h
  | cDeleteTodo l tid => exact delete_todo_untouched l tid s k h
  | cGetTodo l tid =>
    show kvGet (get_todo l tid s).2.1 k = kvGet s k
    rw [get_todo_store]
  | cListTodos l pid f =>
    show kvGet (list_todos l pid f s).2.1 k = kvGet s k
    rw [list_todos_store]

/-! The project index as read is never written: the read key of any
allow-listed login is untouched by every handler of every allow-listed
login, so from the empty store it stays absent forever. -/

def projListEmptyInv (s : Store) : Prop :=
  ∀ L, L ∈ ALLOWED_USERNAMES → kvGet s (projectListReadKey L) = none

theorem readKey_untouched (lg L : String) (hlg : lg ∈ ALLOWED_USERNAMES)
    (hL : L ∈ ALLOWED_USERNAMES) : untouchedBy lg (projectListReadKey L) :=
  ⟨fun pid => (projectKey_ne_readKey pid lg L hlg).symm,
   fun pid => (todoListKey_ne_readKey pid lg L).symm,
   fun tid => (todoKey_ne_readKey lg tid L).symm,
   (writeKey_ne_readKey L hL).symm⟩

theorem applyCall_inv (s : Store) (c : Call) (h : projListEmptyInv s) :
    projListEmptyInv (applyCall s c) := by
  intro L hL
  unfold applyCall
  by_cases hlg : c.login ∈ ALLOWED_USERNAMES
  · rw [if_pos hlg, dispatch_untouched s c _ (readKey_untouched c.login L hlg hL)]
    exact h L hL
  · rw [if_neg hlg]
    exact h L hL

theorem runCalls_inv (cs : List Call) :
    ∀ s, projListEmptyInv s → projListEmptyInv (runCalls s cs) := by
  induction cs with
  | nil => intro s h; exact h
  | cons c rest ih => intro s h; exact ih _ (applyCall_inv s c h)

/-! Concrete records and stores used by the evaluation theorems. -/

def sampleTodo : Todo :=
  { id := "T"
    projectId := "P"
    title := "write spec"
    description := ""
    status := Status.pending
    priority := Priority.medium
    createdAt := "t0"
    updatedAt := "t0" }

def sampleProject : Project :=
  { id := "P"
    name := "Launch"
    description := "v1"
    createdAt := "t0"
    updatedAt := "t0" }

/-- A store holding project P of owner ermao1688 with one todo T listed in
P's todo index. -/
def c1Store : Store :=
  [(projectKey "P" "ermao1688", Val.projV sampleProject),
   (todoKey "ermao1688" "T", Val.todoV sampleTodo),
   (todoListKey "P" "ermao1688", Val.idsV ["T"])]

/-- Claim C1 (code bug, concrete run of the cascade): with project P owning
the single listed todo T, after delete_project P the call list_todos P does
fail NotFound, but get_todo T SUCCEEDS and returns the untouched record,
which is still in the store: the private deleteTodo only rewrites the todo
index and never deletes the todo record, contradicting the claimed cascade
(and the tool's own description "Delete a project by its ID and all its
todos" and its response text). -/
theorem c1_delete_project_leaves_todo_records :
    (list_todos "ermao1688" "P" none
        (delete_project "ermao1688" "P" c1Store).2.1).1 =
      Resp.fault "Project with ID P not found" ∧
    (get_todo "ermao1688" "T"
        (delete_project "ermao1688" "P" c1Store).2.1).1 =
      Resp.todoJson sampleTodo ∧
    kvGet (delete_project "ermao1688" "P" c1Store).2.1
        (todoKey "ermao1688" "T") = some (Val.todoV sampleTodo) :=
  ⟨rfl, rfl, rfl⟩

/-- The store produced by createProject run by ermao1688 on the empty store. -/
def c2Store : Store :=
  (createProject "ermao1688" "Launch" none "p1" "t0" []).2.1

/-- Claim C2 (code bug, concrete run): createProject writes the Project
record, but its index append goes to the constant double-quoted key (the
dollar-brace placeholder taken literally), not to the template-interpolated
key that getProjectList reads; the read key remains absent, so the
subsequent get_project_list does NOT contain the created project - it is
empty. -/
theorem c2_createProject_index_write_misses_read :
    kvGet c2Store (projectKey "p1" "ermao1688") =
      some (Val.projV
        { id := "p1", name := "Launch", description := "", createdAt := "t0",
          updatedAt := "t0" }) ∧
    kvGet c2Store (projectListReadKey "ermao1688") = none ∧
    kvGet c2Store projectListWriteKey = some (Val.idsV ["p1"]) ∧
    (get_project_list "ermao1688" c2Store).1 = Resp.projectListJson [] :=
  ⟨rfl, rfl, rfl, rfl⟩

/-- Claim C3: starting from the empty store, after any finite sequence of
tool calls by any owners, get_project_list returns the empty sequence for
every login able to invoke it, because every project-index write targets the
constant plain-string key, which no read key of an allow-listed login ever
equals. -/
theorem c3_get_project_list_always_empty (cs : List Call) (L : String)
    (hL : L ∈ ALLOWED_USERNAMES) :
    (get_project_list L (runCalls [] cs)).1 = Resp.projectListJson [] := by
  have h0 : kvGet (runCalls [] cs) (projectListReadKey L) = none :=
    runCalls_inv cs [] (fun _ _ => rfl) L hL
  simp [get_project_list, getProjectList, h0, resolveProjects]

/-- Witness for C3: a concrete trace that creates a project and a todo,
after which the caller's get_project_list is still empty. -/
theorem c3_get_project_list_always_empty_witness :
    "ermao1688" ∈ ALLOWED_USERNAMES ∧
    (get_project_list "ermao1688" (runCalls []
        [Call.cCreateProject "ermao1688" "Launch" none "p1" "t0",
         Call.cCreateTodo "ermao1688" "p1" "write spec" none none "T" "t1"])).1 =
      Resp.projectListJson [] :=
  ⟨by decide,
   c3_get_project_list_always_empty
     [Call.cCreateProject "ermao1688" "Launch" none "p1" "t0",
      Call.cCreateTodo "ermao1688" "p1" "write spec" none none "T" "t1"]
     "ermao1688" (by decide)⟩

/-- A store for C8: todo T of project P, with its id listed TWICE in P's
todo index. -/
def c8Store : Store :=
  [(todoKey "ermao1688" "T", Val.todoV sampleTodo),
   (todoListKey "P" "ermao1688", Val.idsV ["T", "T"])]

/-- Counterexample to claim C8 as stated: with the id T occurring twice in
the index, one delete_todo call leaves the index EMPTY, not with the second
occurrence in place - the delete_todo tool filters out every matching
occurrence. -/
theorem c8_delete_todo_removes_all_occurrences_cex :
    kvGet (delete_todo "ermao1688" "T" c8Store).2.1
        (todoListKey "P" "ermao1688") = some (Val.idsV []) ∧
    ¬ (some (Val.idsV ([] : List String)) = some (Val.idsV ["T"])) :=
  ⟨rfl, by decide⟩

/-- indexOf + splice removes exactly the first occurrence: removeFirst is
List.erase. -/
theorem removeFirst_eq_erase (l : List String) (a : String) :
    removeFirst l a = l.erase a := by
  induction l with
  | nil => rfl
  | cons x xs ih =>
    by_cases h : x = a
    · simp [removeFirst, h, List.erase_cons]
    · simp [removeFirst, h, List.erase_cons, ih]

/-- Claim C8 amended: index removal is split by operation. The cascade's
per-todo removal (private deleteTodo, indexOf + splice) removes only the
FIRST matching occurrence (it writes back List.erase of the index, so a
duplicated id keeps its remaining occurrences), while the delete_todo tool
removes EVERY occurrence (it writes back the filter of the index). -/
theorem c8_removal_amended (lg pid tid : String) (s : Store) (es : List Eff)
    (t0 : Todo) (h : kvGet s (todoKey lg tid) = some (Val.todoV t0)) :
    (deleteTodo pid tid lg (s, es)).1 =
      kvPut s (todoListKey pid lg) (Val.idsV ((getTodoList pid lg s).erase tid)) ∧
    (∀ rest : List String, removeFirst (tid :: tid :: rest) tid = tid :: rest) ∧
    (delete_todo lg tid s).2.1 =
      kvDelete (kvPut s (todoListKey t0.projectId lg)
        (Val.idsV ((getTodoList t0.projectId lg s).filter (fun i => i ≠ tid))))
        (todoKey lg tid) := by
  refine ⟨?_, ?_, ?_⟩
  · simp [deleteTodo, stPut, removeFirst_eq_erase]
  · intro rest
    simp [removeFirst]
  · simp [delete_todo, h, stPut, stDel]

/-- Witness for the amended C8 at the duplicated-index store. -/
theorem c8_removal_amended_witness :
    kvGet c8Store (todoKey "ermao1688" "T") = some (Val.todoV sampleTodo) ∧
    (deleteTodo "P" "T" "ermao1688" (c8Store, [])).1 =
      kvPut c8Store (todoListKey "P" "ermao1688")
        (Val.idsV ((getTodoList "P" "ermao1688" c8Store).erase "T")) :=
  ⟨rfl, (c8_removal_amended "ermao1688" "P" "T" c8Store [] sampleTodo rfl).1⟩

/-- Claim C4: update_todo on an existing todo replaces the title, refreshes
updatedAt, takes description/status/priority from the arguments only when
supplied (otherwise keeps the prior values), keeps id, projectId and
createdAt, and issues exactly one put, at the todo's own record key - no
index key is written. -/
theorem c4_update_todo_partial_update (lg tid ti : String) (d : Option String)
    (st2 : Option Status) (pr : Option Priority) (now : String) (s : Store)
    (t0 : Todo) (h : kvGet s (todoKey lg tid) = some (Val.todoV t0)) :
    (update_todo lg tid ti d st2 pr now s).1 =
      Resp.todoJson
        { id := t0.id, projectId := t0.projectId, title := ti,
          description := d.getD t0.description, status := st2.getD t0.status,
          priority := pr.getD t0.priority, createdAt := t0.createdAt,
          updatedAt := now } ∧
    (update_todo lg tid ti d st2 pr now s).2.2 =
      [Eff.putE (todoKey lg tid) (Val.todoV
        { id := t0.id, projectId := t0.projectId, title := ti,
          description := d.getD t0.description, status := st2.getD t0.status,
          priority := pr.getD t0.priority, createdAt := t0.createdAt,
          updatedAt := now })] ∧
    (update_todo lg tid ti d st2 pr now s).2.1 =
      kvPut s (todoKey lg tid) (Val.todoV
        { id := t0.id, projectId := t0.projectId, title := ti,
          description := d.getD t0.description, status := st2.getD t0.status,
          priority := pr.getD t0.priority, createdAt := t0.createdAt,
          updatedAt := now }) := by
  refine ⟨?_, ?_, ?_⟩ <;> simp [update_todo, h, stPut]

/-- Witness for C4: update only the title of the stored sample todo. -/
theorem c4_update_todo_partial_update_witness :
    kvGet c1Store (todoKey "ermao1688" "T") = some (Val.todoV sampleTodo) ∧
    (update_todo "ermao1688" "T" "new title" none none none "t9" c1Store).1 =
      Resp.todoJson
        { id := "T", projectId := "P", title := "new title", description := "",
          status := Status.pending, priority := Priority.medium,
          createdAt := "t0", updatedAt := "t9" } :=
  ⟨rfl, (c4_update_todo_partial_update "ermao1688" "T" "new title" none none none
    "t9" c1Store sampleTodo rfl).1⟩

/-- The Todo record create_todo builds (the object literal of index.ts lines
329-338), named so theorems can refer to it. -/
def freshTodo (pid ti : String) (d : Option String) (pr : Option Priority)
    (i t : String) : Todo :=
  { id := i
    projectId := pid
    title := ti
    description := d.getD ""
    priority := pr.getD Priority.medium
    status := Status.pending
    createdAt := t
    updatedAt := t }

/-- Claim C5: create_todo under a missing parent project returns the
not-found message and performs no write at all; under an existing parent it
returns the fresh record (status pending, priority defaulted to medium,
both timestamps stamped, id the generated one) and issues exactly two puts:
first the Todo record at its own key, then the project's todo index with the
new id appended - record before index. -/
theorem c5_create_todo_record_then_index (lg pid ti : String) (d : Option String)
    (pr : Option Priority) (i t : String) (s : Store) :
    (kvGet s (projectKey pid lg) = none →
      create_todo lg pid ti d pr i t s =
        (Resp.textMsg ("Project with ID " ++ pid ++ " not found"), (s, []))) ∧
    (∀ p : Project, kvGet s (projectKey pid lg) = some (Val.projV p) →
      (create_todo lg pid ti d pr i t s).1 =
        Resp.todoJson (freshTodo pid ti d pr i t) ∧
      (create_todo lg pid ti d pr i t s).2.2 =
        [Eff.putE (todoKey lg i) (Val.todoV (freshTodo pid ti d pr i t)),
         Eff.putE (todoListKey pid lg)
           (Val.idsV (getTodoList pid lg s ++ [i]))]) := by
  constructor
  · intro h
    simp [create_todo, h]
  · intro p h
    have hread : getTodoList pid lg
        (kvPut s (todoKey lg i) (Val.todoV (freshTodo pid ti d pr i t))) =
        getTodoList pid lg s := by
      unfold getTodoList
      rw [kvGet_put_ne _ _ _ _ (todoKey_ne_todoListKey lg i pid lg).symm]
    constructor
    · simp [create_todo, h, freshTodo]
    · simp only [create_todo, h, stPut, kvPut, freshTodo] at hread ⊢
      rw [hread]
      simp

/-- Witness for C5: create a todo under the existing sample project. -/
theorem c5_create_todo_record_then_index_witness :
    kvGet c1Store (projectKey "P" "ermao1688") = some (Val.projV sampleProject) ∧
    (create_todo "ermao1688" "P" "second" none none "T2" "t5" c1Store).2.2 =
      [Eff.putE (todoKey "ermao1688" "T2")
        (Val.todoV (freshTodo "P" "second" none none "T2" "t5")),
       Eff.putE (todoListKey "P" "ermao1688")
        (Val.idsV (getTodoList "P" "ermao1688" c1Store ++ ["T2"]))] :=
  ⟨rfl, ((c5_create_todo_record_then_index "ermao1688" "P" "second" none none
    "T2" "t5" c1Store).2 sampleProject rfl).2⟩

/-- Resolve a single todo id against the store, as the loop body of
getTodosByProject does (skip when absent). -/
def lookupTodo (lg : String) (s : Store) (tid : String) : Option Todo :=
  match kvGet s (todoKey lg tid) with
  | some (Val.todoV t) => some t
  | _ => none

/-- The resolution loop is a filterMap over the index, in index order. -/
theorem resolveTodos_eq_filterMap (lg : String) (s : Store) (l : List String) :
    resolveTodos lg s l = l.filterMap (lookupTodo lg s) := by
  induction l with
  | nil => rfl
  | cons x xs ih =>
    cases hv : kvGet s (todoKey lg x) with
    | none => simp [resolveTodos, lookupTodo, hv, ih, List.filterMap_cons]
    | some v =>
      cases v <;> simp [resolveTodos, lookupTodo, hv, ih, List.filterMap_cons]

/-- Claim C6: list_todos faults when the project record is absent; when it
exists and the status argument is a status value, it returns exactly the
todos resolvable from the Todo Index whose status equals the filter, in
index (creation) order; with status all or no status argument it returns
all resolvable todos unfiltered. -/
theorem c6_list_todos_filter (lg pid : String) (s : Store) :
    (kvGet s (projectKey pid lg) = none →
      ∀ f, list_todos lg pid f s =
        (Resp.fault ("Project with ID " ++ pid ++ " not found"), (s, []))) ∧
    (∀ p : Project, kvGet s (projectKey pid lg) = some (Val.projV p) →
      (∀ f σ, StatusFilter.asStatus f = some σ →
        (list_todos lg pid (some f) s).1 =
          Resp.todoListJson
            (((getTodoList pid lg s).filterMap (lookupTodo lg s)).filter
              (fun t2 => t2.status = σ))) ∧
      (list_todos lg pid (some StatusFilter.all) s).1 =
        Resp.todoListJson ((getTodoList pid lg s).filterMap (lookupTodo lg s)) ∧
      (list_todos lg pid none s).1 =
        Resp.todoListJson ((getTodoList pid lg s).filterMap (lookupTodo lg s))) := by
  constructor
  · intro h f
    simp [list_todos, h]
  · intro p h
    refine ⟨?_, ?_, ?_⟩
    · intro f σ hf
      simp [list_todos, h, hf, getTodosByProject, resolveTodos_eq_filterMap]
    · simp [list_todos, h, StatusFilter.asStatus, getTodosByProject,
        resolveTodos_eq_filterMap]
    · simp [list_todos, h, getTodosByProject, resolveTodos_eq_filterMap]

/-- Pending todo a for the C6 scenario. -/
def todoA : Todo :=
  { id := "a", projectId := "P", title := "a", description := "",
    status := Status.pending, priority := Priority.medium,
    createdAt := "t0", updatedAt := "t0" }

/-- Pending todo b for the C6 scenario. -/
def todoB : Todo :=
  { id := "b", projectId := "P", title := "b", description := "",
    status := Status.pending, priority := Priority.high,
    createdAt := "t1", updatedAt := "t1" }

/-- Completed todo c for the C6 scenario. -/
def todoC : Todo :=
  { id := "c", projectId := "P", title := "c", description := "",
    status := Status.completed, priority := Priority.low,
    createdAt := "t2", updatedAt := "t2" }

/-- Store for C6: project P with todos a, b (pending) and c (completed). -/
def c6Store : Store :=
  [(projectKey "P" "ermao1688", Val.projV sampleProject),
   (todoKey "ermao1688" "a", Val.todoV todoA),
   (todoKey "ermao1688" "b", Val.todoV todoB),
   (todoKey "ermao1688" "c", Val.todoV todoC),
   (todoListKey "P" "ermao1688", Val.idsV ["a", "b", "c"])]

/-- Witness for C6 at the pending/pending/completed scenario. -/
theorem c6_list_todos_filter_witness :
    kvGet c6Store (projectKey "P" "ermao1688") = some (Val.projV sampleProject) ∧
    StatusFilter.asStatus StatusFilter.pending = some Status.pending ∧
    (list_todos "ermao1688" "P" (some StatusFilter.pending) c6Store).1 =
      Resp.todoListJson
        (((getTodoList "P" "ermao1688" c6Store).filterMap
          (lookupTodo "ermao1688" c6Store)).filter
            (fun t2 => t2.status = Status.pending)) :=
  ⟨rfl, rfl,
   ((c6_list_todos_filter "ermao1688" "P" c6Store).2 sampleProject rfl).1
     StatusFilter.pending Status.pending rfl⟩

/-- Claim C7: not-found signalling is split by operation. When the
referenced todo record (for delete_todo, get_todo, update_todo) or project
record (for list_todos, get_project, delete_project, create_todo) is
absent, delete_todo, get_todo and list_todos raise a fault, while
get_project, delete_project, create_todo and update_todo return a normal
response carrying a human-readable not-found message; in all seven cases
the store is returned unchanged and the effect list is empty (no
mutation). -/
theorem c7_notfound_idioms (lg tid pid ti : String) (d : Option String)
    (st2 : Option Status) (pr : Option Priority) (i t : String)
    (f : Option StatusFilter) (s : Store)
    (ht : kvGet s (todoKey lg tid) = none)
    (hp : kvGet s (projectKey pid lg) = none) :
    delete_todo lg tid s =
      (Resp.fault ("Todo with ID " ++ tid ++ " not found"), (s, [])) ∧
    get_todo lg tid s =
      (Resp.fault ("Todo with ID " ++ tid ++ " not found"), (s, [])) ∧
    list_todos lg pid f s =
      (Resp.fault ("Project with ID " ++ pid ++ " not found"), (s, [])) ∧
    get_project lg pid s =
      (Resp.textMsg ("Project with ID " ++ pid ++ " not found"), (s, [])) ∧
    delete_project lg pid s =
      (Resp.textMsg ("Project with ID " ++ pid ++ " not found"), (s, [])) ∧
    create_todo lg pid ti d pr i t s =
      (Resp.textMsg ("Project with ID " ++ pid ++ " not found"), (s, [])) ∧
    update_todo lg tid ti d st2 pr t s =
      (Resp.textMsg ("Todo with ID " ++ tid ++ " not found"), (s, [])) := by
  refine ⟨?_, ?_, ?_, ?_, ?_, ?_, ?_⟩ <;>
    simp [delete_todo, get_todo, list_todos, get_project, delete_project,
      create_todo, update_todo, ht, hp]

/-- Witness for C7 on the empty store. -/
theorem c7_notfound_idioms_witness :
    kvGet ([] : Store) (todoKey "ermao1688" "X") = none ∧
    delete_todo "ermao1688" "X" [] =
      (Resp.fault ("Todo with ID " ++ "X" ++ " not found"), (([] : Store), [])) ∧
    get_project "ermao1688" "Q" [] =
      (Resp.textMsg ("Project with ID " ++ "Q" ++ " not found"), (([] : Store), [])) :=
  ⟨rfl,
   (c7_notfound_idioms "ermao1688" "X" "Q" "ti" none none none "i" "t" none []
     rfl rfl).1,
   (c7_notfound_idioms "ermao1688" "X" "Q" "ti" none none none "i" "t" none []
     rfl rfl).2.2.2.1⟩

/-- Resolve a single project id against the store, as the loop body of
get_project_list does (skip when absent). -/
def lookupProject (lg : String) (s : Store) (pid : String) : Option Project :=
  match kvGet s (projectKey pid lg) with
  | some (Val.projV p) => some p
  | _ => none

theorem resolveProjects_eq_filterMap (lg : String) (s : Store) (l : List String) :
    resolveProjects lg s l = l.filterMap (lookupProject lg s) := by
  induction l with
  | nil => rfl
  | cons x xs ih =>
    cases hv : kvGet s (projectKey x lg) with
    | none => simp [resolveProjects, lookupProject, hv, ih, List.filterMap_cons]
    | some v =>
      cases v <;> simp [resolveProjects, lookupProject, hv, ih, List.filterMap_cons]

/-! Observational congruence: a caller's reads depend only on the values of
that caller's own schema keys. -/

theorem resolveTodos_congr (lg : String) (s s2 : Store)
    (ht : ∀ q, kvGet s2 (todoKey lg q) = kvGet s (todoKey lg q)) (l : List String) :
    resolveTodos lg s2 l = resolveTodos lg s l := by
  rw [resolveTodos_eq_filterMap, resolveTodos_eq_filterMap]
  refine List.filterMap_congr (fun x _ => ?_)
  unfold lookupTodo
  rw [ht x]

theorem resolveProjects_congr (lg : String) (s s2 : Store)
    (hp : ∀ q, kvGet s2 (projectKey q lg) = kvGet s (projectKey q lg)) (l : List String) :
    resolveProjects lg s2 l = resolveProjects lg s l := by
  rw [resolveProjects_eq_filterMap, resolveProjects_eq_filterMap]
  refine List.filterMap_congr (fun x _ => ?_)
  unfold lookupProject
  rw [hp x]

theorem get_project_congr (lg pid : String) (s s2 : Store)
    (hp : kvGet s2 (projectKey pid lg) = kvGet s (projectKey pid lg))
    (hl : kvGet s2 (todoListKey pid lg) = kvGet s (todoListKey pid lg))
    (ht : ∀ q, kvGet s2 (todoKey lg q) = kvGet s (todoKey lg q)) :
    (get_project lg pid s2).1 = (get_project lg pid s).1 := by
  have hgt : getTodosByProject pid lg s2 = getTodosByProject pid lg s := by
    unfold getTodosByProject getTodoList
    rw [hl, resolveTodos_congr lg s s2 ht]
  unfold get_project
  rw [hp]
  cases hv : kvGet s (projectKey pid lg) with
  | none => rfl
  | some v => cases v <;> simp [hv, hgt]

theorem get_project_list_congr (lg : String) (s s2 : Store)
    (hr : kvGet s2 (projectListReadKey lg) = kvGet s (projectListReadKey lg))
    (hp : ∀ q, kvGet s2 (projectKey q lg) = kvGet s (projectKey q lg)) :
    (get_project_list lg s2).1 = (get_project_list lg s).1 := by
  have hgl : getProjectList lg s2 = getProjectList lg s := by
    unfold getProjectList
    rw [hr]
  unfold get_project_list
  rw [hgl, resolveProjects_congr lg s s2 hp]

/-- Claim C9: per-owner isolation. For distinct allow-listed owners A and B,
running A's createProject changes nothing B can observe through get_project
or get_project_list: every key A's create writes embeds A's login (or is the
constant write key) and every key B's reads consult embeds B's login, and
no two of those coincide; in particular a project created under A is never
returned to B. -/
theorem c9_owner_isolation (A B pid nm : String) (d : Option String)
    (i t : String) (s : Store) (hA : A ∈ ALLOWED_USERNAMES)
    (hB : B ∈ ALLOWED_USERNAMES) (hAB : A ≠ B) :
    (get_project B pid (createProject A nm d i t s).2.1).1 =
      (get_project B pid s).1 ∧
    (get_project_list B (createProject A nm d i t s).2.1).1 =
      (get_project_list B s).1 := by
  have hu1 : ∀ q, kvGet (createProject A nm d i t s).2.1 (projectKey q B) =
      kvGet s (projectKey q B) := by
    intro q
    exact createProject_untouched A nm d i t s _
      ⟨fun q2 => cross_projectKey_ne q q2 B A hB hA hAB.symm,
       fun q2 => (todoListKey_ne_projectKey q2 A q B hB).symm,
       fun tid => (todoKey_ne_projectKey A tid q B).symm,
       projectKey_ne_writeKey q B hB⟩
  have hu2 : ∀ q, kvGet (createProject A nm d i t s).2.1 (todoListKey q B) =
      kvGet s (todoListKey q B) := by
    intro q
    exact createProject_untouched A nm d i t s _
      ⟨fun q2 => todoListKey_ne_projectKey q B q2 A hA,
       fun q2 => cross_todoListKey_ne q q2 B A hB hA hAB.symm,
       fun tid => (todoKey_ne_todoListKey A tid q B).symm,
       todoListKey_ne_writeKey q B⟩
  have hu3 : ∀ q, kvGet (createProject A nm d i t s).2.1 (todoKey B q) =
      kvGet s (todoKey B q) := by
    intro q
    exact createProject_untouched A nm d i t s _
      ⟨fun q2 => todoKey_ne_projectKey B q q2 A,
       fun q2 => todoKey_ne_todoListKey B q q2 A,
       fun tid => cross_todoKey_ne q tid B A hB hA hAB.symm,
       todoKey_ne_writeKey B q⟩
  have hu4 : kvGet (createProject A nm d i t s).2.1 (projectListReadKey B) =
      kvGet s (projectListReadKey B) :=
    createProject_untouched A nm d i t s _ (readKey_untouched A B hA hB)
  exact ⟨get_project_congr B pid s _ (hu1 pid) (hu2 pid) hu3,
         get_project_list_congr B s _ hu4 hu1⟩

/-- Witness for C9: hubiao1688 creates project p1 on the empty store;
ermao1688's view of p1 is the same as before (not found). -/
theorem c9_owner_isolation_witness :
    "hubiao1688" ∈ ALLOWED_USERNAMES ∧ "ermao1688" ∈ ALLOWED_USERNAMES ∧
    "hubiao1688" ≠ "ermao1688" ∧
    (get_project "ermao1688" "p1"
      (createProject "hubiao1688" "Launch" none "p1" "t0" []).2.1).1 =
      (get_project "ermao1688" "p1" ([] : Store)).1 :=
  ⟨by decide, by decide, by decide,
   (c9_owner_isolation "hubiao1688" "ermao1688" "p1" "Launch" none "p1" "t0" []
     (by decide) (by decide) (by decide)).1⟩

/-- Claim C10: round trip. Under an existing parent project and with no
intervening writes, whatever Todo record create_todo returns, get_todo with
that record's id reads back exactly the same record, every field included. -/
theorem c10_create_get_roundtrip (lg pid ti : String) (d : Option String)
    (pr : Option Priority) (i t : String) (s : Store) (p : Project)
    (hp : kvGet s (projectKey pid lg) = some (Val.projV p)) (T : Todo)
    (hT : (create_todo lg pid ti d pr i t s).1 = Resp.todoJson T) :
    (get_todo lg T.id (create_todo lg pid ti d pr i t s).2.1).1 =
      Resp.todoJson T := by
  have h1 : (create_todo lg pid ti d pr i t s).1 =
      Resp.todoJson (freshTodo pid ti d pr i t) := by
    simp [create_todo, hp, freshTodo]
  have hTeq : T = freshTodo pid ti d pr i t := by
    have h2 := hT.symm.trans h1
    injection h2
  subst hTeq
  have hget : kvGet (create_todo lg pid ti d pr i t s).2.1 (todoKey lg i) =
      some (Val.todoV (freshTodo pid ti d pr i t)) := by
    simp only [create_todo, hp, stPut, kvPut]
    rw [kvGet_cons_ne _ _ _ _ (todoKey_ne_todoListKey lg i pid lg),
      kvGet_cons_self]
    rfl
  have hid : (freshTodo pid ti d pr i t).id = i := rfl
  unfold get_todo
  rw [hid, hget]

/-- Witness for C10: create a todo under the sample project and read it
back. -/
theorem c10_create_get_roundtrip_witness :
    kvGet c1Store (projectKey "P" "ermao1688") = some (Val.projV sampleProject) ∧
    (create_todo "ermao1688" "P" "x" none none "T9" "t7" c1Store).1 =
      Resp.todoJson (freshTodo "P" "x" none none "T9" "t7") ∧
    (get_todo "ermao1688" (freshTodo "P" "x" none none "T9" "t7").id
      (create_todo "ermao1688" "P" "x" none none "T9" "t7" c1Store).2.1).1 =
      Resp.todoJson (freshTodo "P" "x" none none "T9" "t7") :=
  ⟨rfl, rfl,
   c10_create_get_roundtrip "ermao1688" "P" "x" none none "T9" "t7" c1Store
     sampleProject rfl (freshTodo "P" "x" none none "T9" "t7") rfl⟩

end ProjectPlanner
